import Mathlib

/-!
Verification of the Water_line document-ingestion pipeline.

This file gives a shallow embedding, in Lean 4, of the parts of the
repository relevant to the frozen claims:

* `src/data_processing/report_processor.py` — the ingestion orchestrator
  `process_reports` (database state, per-file / per-table / per-row
  processing, the value coercer `to_float`);
* `src/data_processing/pdf/pdf_process.py` — the per-page table-location
  strategy chain of `extract_data_from_pdf`, the two text-based fallback
  parsers, and the exact-header / positional-fallback row assembly;
* `src/mssql_export/mssql_exporter.py` — the column cleaner `clean_column`.

Modelling conventions:

* Python strings are `String`; `None`-able strings are `Option String`.
  All string manipulation is implemented by structural recursion on the
  underlying character lists so that every definition evaluates inside
  the kernel.
* Python floats are modelled by `ℚ` (the coercer parses plain decimal
  strings, where rational arithmetic is exact).
* Calls into external libraries (`pdfplumber`, `python-docx`, the
  geometric word boxes of a PDF page) are environment inputs: the values
  they would return are fields of the input structures.
* Python dictionaries are insertion-ordered association lists; `dset`
  mirrors dictionary assignment (update in place, else append) and
  `dget` mirrors `dict.get(key)` with default `None`.
* Uncaught Python exceptions are modelled with `Except`; caught ones
  (`try`/`except` blocks that log and continue) are ordinary control flow.
-/

/-- Python truthiness for a possibly-`None` string: `None` and `""` are falsy. -/
def truthyS (v : Option String) : Bool :=
  match v with
  | some t => t ≠ ""
  | none => false

/-- Python `a or b` on possibly-`None` strings: `a` when truthy, else `b`. -/
def pyOr (a b : Option String) : Option String :=
  if truthyS a then a else b

/-- Python `str.strip()`: remove whitespace from both ends (list form). -/
def stripL (l : List Char) : List Char :=
  ((l.dropWhile Char.isWhitespace).reverse.dropWhile Char.isWhitespace).reverse

/-- Python `str.strip()` on strings. -/
def pyStrip (s : String) : String :=
  String.mk (stripL s.toList)

/-- Substring test on character lists: Python `pat in hay`. -/
def containsL (hay pat : List Char) : Bool :=
  match hay with
  | [] => pat.isEmpty
  | _ :: rest => pat.isPrefixOf hay || containsL rest pat

/-- Python `pat in hay` on strings. -/
def containsSub (hay pat : String) : Bool :=
  containsL hay.toList pat.toList

/-- Python `s.startswith(p)`. -/
def pyStartsWith (s p : String) : Bool :=
  p.toList.isPrefixOf s.toList

/-- Python `s.endswith(p)`. -/
def pyEndsWith (s p : String) : Bool :=
  p.toList.reverse.isPrefixOf s.toList.reverse

/-- Python `s.split(sep)` for a one-character separator (list form). -/
def splitOnChar (sep : Char) : List Char → List (List Char)
  | [] => [[]]
  | c :: rest =>
    if c = sep then [] :: splitOnChar sep rest
    else
      match splitOnChar sep rest with
      | [] => [[c]]
      | h :: t => (c :: h) :: t

/-- Python `s.split(sep)` for a one-character separator, on strings. -/
def pySplit (s : String) (sep : Char) : List String :=
  (splitOnChar sep s.toList).map String.mk

/-- Unicode lowercasing restricted to the characters this code base
manipulates: ASCII plus the mangled-encoding letter `Â` (Python
`str.lower` maps it to `â`). -/
def pyLowerChar (c : Char) : Char :=
  if c = 'Â' then 'â' else c.toLower

/-- Python `str.lower()` over the character vocabulary of this code base. -/
def pyLower (s : String) : String :=
  String.mk (s.toList.map pyLowerChar)

/-- Python `str.isalnum()` restricted to the characters this code base
manipulates: ASCII alphanumerics plus the letters `µ`, `Â`, `â` (Unicode
category L, hence alphanumeric for Python); `°` (category So) is not
alphanumeric. -/
def pyIsAlnum (c : Char) : Bool :=
  c.isAlphanum || c = 'µ' || c = 'Â' || c = 'â'

/-- The character class of `re.sub(r'[^\d.-]', '', val)` in `to_float`
(report_processor.py line 297): digits, `.` and `-` are kept. -/
def isNumericChar (c : Char) : Bool :=
  c.isDigit || c = '.' || c = '-'

/-- The substitution `re.sub(r'[^\d.-]', '', val)`: delete every character that is not a
digit, `.` or `-`. -/
def stripNonNumeric (s : String) : String :=
  String.mk (s.toList.filter isNumericChar)

/-- Numeric value of a list of decimal digits. -/
def digitsVal (l : List Char) : ℕ :=
  l.foldl (fun a c => a * 10 + (c.toNat - 48)) 0

/-- Python `float(s)` on a string drawn from the characters `[0-9.-]`
(the only characters `to_float` can pass to it): an optional leading
`-`, then digits with at most one `.` and at least one digit in total.
Any other shape raises `ValueError` in Python, modelled as `none`.
The result is exact as a rational. -/
def pyFloat? (s : String) : Option ℚ :=
  let (neg, body) :=
    match s.toList with
    | '-' :: rest => (true, rest)
    | l => (false, l)
  let mk : ℕ → ℕ → ℚ := fun num den => mkRat (if neg then -(num : ℤ) else (num : ℤ)) den
  match splitOnChar '.' body with
  | [d] =>
    if d.length ≠ 0 ∧ d.all Char.isDigit then some (mk (digitsVal d) 1) else none
  | [a, b] =>
    if (a.length + b.length ≠ 0) ∧ a.all Char.isDigit ∧ b.all Char.isDigit then
      some (mk (digitsVal a * 10 ^ b.length + digitsVal b) (10 ^ b.length))
    else none
  | _ => none

/-- The Value Coercer `to_float` (report_processor.py lines 293-300):

    if val is None or val == '': return None
    try:
        cleaned_val = re.sub(r'[^\d.-]', '', val)
        return float(cleaned_val) if cleaned_val else None
    except ValueError:
        return None

`pyFloat?` returning `none` models the caught `ValueError`; the function
is total, so coercion never raises. -/
def to_float (val : Option String) : Option ℚ :=
  match val with
  | none => none
  | some v =>
    if v = "" then none
    else
      let cleaned := stripNonNumeric v
      if cleaned = "" then none else pyFloat? cleaned

/-- The dual-value ("A | B") coercion applied to `live_atp` raw values
(report_processor.py lines 317-320):

    if '|' in live_val:
        live_atp = to_float(live_val.split('|')[0].strip())
    else:
        live_atp = to_float(live_val)
-/
def coerce_dual (live_val : String) : Option ℚ :=
  if containsSub live_val "|" then
    to_float (some (pyStrip ((pySplit live_val '|').headD "")))
  else to_float (some live_val)

/-- The column cleaner `clean_column` (mssql_exporter.py lines 13-19):

    if name is None: return None
    name = name.replace("\n", " ").replace("µ", "u").replace(".", "").replace("°", "").strip()
    name = ''.join(c if c.isalnum() or c == ' ' else '' for c in name)
    name = name.replace(" ", "_")
    return name

Each `replace` has a one-character pattern, so it is a per-character map
(or a filter when the replacement is empty).  `cleanStep1` is the first
line (the four replaces, before the strip). -/
def cleanStep1 (l : List Char) : List Char :=
  (((l.map (fun c => if c = '\n' then ' ' else c)).map
      (fun c => if c = 'µ' then 'u' else c)).filter (fun c => c ≠ '.')).filter
      (fun c => c ≠ '°')

/-- The remaining lines of `clean_column`: strip, keep alphanumerics and
spaces, then turn spaces into underscores. -/
def cleanChars (l : List Char) : List Char :=
  ((stripL (cleanStep1 l)).filter (fun c => pyIsAlnum c || c = ' ')).map
    (fun c => if c = ' ' then '_' else c)

/-- The cleaner `clean_column` on a possibly-`None` column name. -/
def clean_column (name : Option String) : Option String :=
  match name with
  | none => none
  | some n => some (String.mk (cleanChars n.toList))

/-! ## Embedding of `src/data_processing/pdf/pdf_process.py` -/

/-- A table cell as returned by `pdfplumber.extract_table` and the
fallback parsers: a string or `None`. -/
abbrev Cell := Option String

/-- A located table: a grid of cells. -/
abbrev PTable := List (List Cell)

/-- A system record: a Python dictionary in insertion order, from column
name to cell value. -/
abbrev SystemData := List (String × Cell)

/-- Dictionary assignment `d[k] = v`: update the value in place when the
key is present, else append the pair (Python dictionaries preserve the
position of an existing key; their keys are unique, so updating the
first occurrence is exact). -/
def dset (d : SystemData) (k : String) (v : Cell) : SystemData :=
  match d with
  | [] => [(k, v)]
  | p :: t => if p.1 = k then (k, v) :: t else p :: dset t k v

/-- Python `d.get(k)` / `d.get(k, None)`: the stored value, or `None` when the
key is absent. -/
def dget (d : SystemData) (k : String) : Cell :=
  match d with
  | [] => none
  | p :: t => if p.1 = k then p.2 else dget t k

/-- Python `' '.join(parts)` on character lists. -/
def joinSpaceL : List (List Char) → List Char
  | [] => []
  | [w] => w
  | w :: ws => w ++ ' ' :: joinSpaceL ws

/-- Python `' '.join(parts)` on strings. -/
def joinSpace (parts : List String) : String :=
  String.mk (joinSpaceL (parts.map String.toList))

/-- The split `re.split(r'\s+', line)` on a stripped, nonempty line: its
whitespace-separated fields. -/
def wordsAux : List Char → List Char → List (List Char)
  | cur, [] => if cur.isEmpty then [] else [cur.reverse]
  | cur, c :: rest =>
    if c.isWhitespace then
      if cur.isEmpty then wordsAux [] rest else cur.reverse :: wordsAux [] rest
    else wordsAux (c :: cur) rest

/-- The split `re.split(r'\s+', s)` for a stripped string `s`. -/
def splitWsFields (s : String) : List String :=
  (wordsAux [] s.toList).map String.mk

/-- Python `s.replace(pat, rep)` for a nonempty pattern, with explicit
fuel (one unit per consumed character, so `s.length` always suffices). -/
def replaceAux (pat rep : List Char) : ℕ → List Char → List Char
  | 0, l => l
  | _ + 1, [] => []
  | fuel + 1, c :: rest =>
    if pat.isPrefixOf (c :: rest) then rep ++ replaceAux pat rep fuel (rest.drop (pat.length - 1))
    else c :: replaceAux pat rep fuel rest

/-- Python `s.replace(pat, rep)` (all the patterns used in this code
base are nonempty). -/
def pyReplace (s pat rep : String) : String :=
  if pat.toList.isEmpty then s
  else String.mk (replaceAux pat.toList rep.toList s.toList.length s.toList)

/-- The comprehension `[line.strip() for line in text.split('\n') if line.strip()]`. -/
def pyLines (text : String) : List String :=
  (((splitOnChar '\n' text.toList).map (fun l => String.mk (stripL l))).filter
    (fun s => s ≠ ""))

/-- The pattern `re.match(r'^\d+ ', s)`: the line starts with one or more digits
followed by a space. -/
def reMatch_numSpace (s : String) : Bool :=
  s.toList.takeWhile Char.isDigit ≠ [] ∧
    (s.toList.dropWhile Char.isDigit).headD ' ' = ' ' ∧ s.toList.dropWhile Char.isDigit ≠ []

/-- The pattern `re.match(r'^\d+$', s)`: the whole line is one or more digits. -/
def reMatch_allDigits (s : String) : Bool :=
  s.toList ≠ [] ∧ s.toList.all Char.isDigit

/-- The pattern `re.match(r'^\d+\.?\d*', s)`, anchored only at the start: satisfied exactly
when the line starts with a digit (the `\.?\d*` tail may be empty). -/
def reMatch_numPrefixM (s : String) : Bool :=
  match s.toList with
  | c :: _ => c.isDigit
  | [] => false

/-- The pattern `re.match(r'^\d+%/\-\d+', s)`, anchored only at the start. -/
def reMatch_pctSlash (s : String) : Bool :=
  let ds := s.toList.takeWhile Char.isDigit
  let r := s.toList.dropWhile Char.isDigit
  (!ds.isEmpty) &&
    (match r with
     | '%' :: '/' :: '-' :: d :: _ => d.isDigit
     | _ => false)

/-- The value-line test of `parse_table_from_text` (pdf_process.py lines
313-316): `^\d+\.?\d*` or `^\d+%/\-\d+` or `^\.$` or the literal `'0'`
or `^\d+$`. -/
def pttValueLine (s : String) : Bool :=
  reMatch_numPrefixM s || reMatch_pctSlash s || s = "." || s = "0" || reMatch_allDigits s

/-- One pass of the `while` loop of `parse_table_from_text`
(pdf_process.py lines 290-322), with explicit fuel (each iteration
consumes at least one line, so the number of lines suffices). -/
def parseTableAux : ℕ → List String → PTable
  | 0, _ => []
  | _ + 1, [] => []
  | fuel + 1, l :: rest =>
    if reMatch_numSpace l || reMatch_allDigits l || l = "-" then
      let parts := splitWsFields l
      let num := parts.headD ""
      let system_type : Cell :=
        if parts.length > 1 then some (joinSpace (parts.drop 1)) else none
      let (nameCell, rest1) :=
        match rest with
        | [] => (([] : List Cell), ([] : List String))
        | m :: r2 =>
          if ¬ reMatch_numPrefixM m ∧ ¬ pyStartsWith m "-" then ([some m], r2)
          else (([] : List Cell), m :: r2)
      let vals := rest1.takeWhile pttValueLine
      let rest2 := rest1.dropWhile pttValueLine
      (some num :: system_type :: (nameCell ++ vals.map some)) :: parseTableAux fuel rest2
    else parseTableAux fuel rest

/-- The parser `parse_table_from_text` (pdf_process.py lines 290-322): line-oriented
text-pattern fallback parser. -/
def parse_table_from_text (text : String) : PTable :=
  parseTableAux (pyLines text).length (pyLines text)

/-- The list `possible_cols` of `parse_vertical_table_from_text` (pdf_process.py
lines 155-157). -/
def possible_cols : List String :=
  ["Cond.", "pH", "Temp", "P Alk", "M Alk", "OH Alk", "Chloride", "Hardness",
   "Calcium", "PO4", "SO2", "Mo", "NO2", "Live ATP", "Glycol", "Free Cl",
   "Total Cl", "Max Temp.", "Free Chlorine", "Total Chlorine", "Temp (*C)",
   "Max Temp (*C)"]

/-- The pattern `re.match(r'^\d+\.?\d*$', s)`: digits, optional dot, optional more
digits, as a full match. -/
def reMatch_fullNum (s : String) : Bool :=
  match splitOnChar '.' s.toList with
  | [d] => d ≠ [] ∧ d.all Char.isDigit
  | [a, b] => a ≠ [] ∧ a.all Char.isDigit ∧ b.all Char.isDigit
  | _ => false

/-- The value-like test of `parse_vertical_table_from_text`
(pdf_process.py line 176): `re.match(r'^\d+\.?\d*$|^\-*$|^\.$|^0$', s)`. -/
def pvValueLike (s : String) : Bool :=
  reMatch_fullNum s || s.toList.all (fun c => c = '-') || s = "." || s = "0"

/-- The known system-type markers of `parse_vertical_table_from_text`
(pdf_process.py line 186). -/
def pvTypes : List String :=
  ["Cooling Tower (Mo)", "CW Nitrite", "MTW Nitrite", "Dist", "Boiler",
   "Softener", "Condensate"]

/-- Type/name split of a sample identifier (pdf_process.py lines
183-189): the first known marker contained in the identifier becomes the
type, and is deleted from the name. -/
def pvSplitTypeName (sample_id : String) : String × String :=
  match pvTypes.find? (fun t => containsSub sample_id t) with
  | some t => (t, pyStrip (pyReplace sample_id t ""))
  | none => ("", sample_id)

/-- Sample-identifier line test (pdf_process.py line 176): neither
value-like nor a `Range` marker. -/
def pvSidCond (s : String) : Bool :=
  ¬ pvValueLike s ∧ ¬ pyStartsWith s "Range"

/-- The inner sample loop of `parse_vertical_table_from_text`
(pdf_process.py lines 169-203), with explicit fuel (each iteration
consumes at least one line). -/
def pvInner (cols : List String) : ℕ → List String → List SystemData
  | 0, _ => []
  | _ + 1, [] => []
  | fuel + 1, ls@(l :: _) =>
    if pyStartsWith l "Range" then pvInner cols fuel (ls.drop (1 + cols.length))
    else
      let sidL := ls.takeWhile pvSidCond
      let rest1 := ls.dropWhile pvSidCond
      if sidL.isEmpty then pvInner cols fuel (ls.drop 1)
      else
        let sample_id := pyStrip (joinSpace (sidL.map pyStrip))
        let tn := pvSplitTypeName sample_id
        let values := (rest1.take cols.length).map
          (fun s => if s ≠ "-" then some (pyStrip s) else (none : Cell))
        let d0 : SystemData := [("System Name", some tn.2), ("System Type", some tn.1)]
        let d := (cols.zip values).foldl (fun a p => dset a p.1 p.2) d0
        d :: pvInner cols fuel (rest1.drop cols.length)

/-- The outer loop of `parse_vertical_table_from_text` (pdf_process.py
lines 158-206): find a literal `Sample ID` header, collect the following
run of recognized column labels, then parse the remaining lines as
vertically-stacked samples. -/
def pvOuter : ℕ → List String → List SystemData
  | 0, _ => []
  | _ + 1, [] => []
  | fuel + 1, l :: rest =>
    if l = "Sample ID" then
      let cols := rest.takeWhile (fun s => possible_cols.contains s)
      let rest1 := rest.dropWhile (fun s => possible_cols.contains s)
      if cols.isEmpty then pvOuter fuel (rest1.drop 1)
      else pvInner cols rest1.length rest1
    else pvOuter fuel rest

/-- The parser `parse_vertical_table_from_text` (pdf_process.py lines 148-206). -/
def parse_vertical_table_from_text (text : String) : List SystemData :=
  pvOuter (pyLines text).length (pyLines text)

/-- The canonical `known_headers` list (pdf_process.py lines 69-71). -/
def known_headers : List String :=
  ["#", "System Type", "System Name", "Cond.", "pH", "Temp", "P Alk", "M Alk",
   "OH Alk", "Chloride", "Hardness", "Calcium", "PO4", "SO2", "Mo", "NO2",
   "Live ATP", "Glycol", "Free Chlorine", "Total Chlorine", "Max Temp."]

/-- The ordered `middle_cols` list (pdf_process.py line 127). -/
def middle_cols : List String :=
  ["P Alk", "M Alk", "Chloride", "Hardness", "Calcium", "PO4", "SO2", "Mo"]

/-- Python `str(cell)` on a possibly-`None` cell: `str(None)` is `"None"`. -/
def pyStr (c : Cell) : String := c.getD "None"

/-- The index pattern `re.match(r'^\d+$|^\-$', s)` as used on `str(row[0])`
(pdf_process.py line 108): all digits, or a single dash. -/
def idxPattern (s : String) : Bool :=
  (s.toList ≠ [] ∧ s.toList.all Char.isDigit) || s = "-"

/-- The flag `full_table = all(len(row) == len(known_headers) for row in table if row)`
(pdf_process.py line 95): every truthy (nonempty) row of the table,
header row included, has exactly the canonical number of cells. -/
def fullTable (table : PTable) : Bool :=
  (table.filter (fun r => ¬ r.isEmpty)).all (fun r => r.length = known_headers.length)

/-- One data row of exact-header mode (pdf_process.py lines 98-104):
skip rows whose first cell is empty, `-` or `None`; zip against the
canonical headers; keep the record only when it has a system type or a
system name. -/
def exactRow (row : List Cell) : Option SystemData :=
  if row.isEmpty || [some "", some "-", (none : Cell)].contains (row.headD none) then none
  else
    let cleaned := row.map (fun c => c.map pyStrip)
    let d := (known_headers.zip cleaned).foldl (fun a p => dset a p.1 p.2) []
    if truthyS (dget d "System Type") || truthyS (dget d "System Name") then some d
    else none

/-- The nonempty trailing values of a positional-fallback row
(pdf_process.py line 113): string cells from index 3 on whose stripped
form is nonempty, stripped. -/
def rowValues (row : List Cell) : List String :=
  (row.drop 3).filterMap (fun c =>
    match c with
    | some v => if pyStrip v ≠ "" then some (pyStrip v) else none
    | none => none)

/-- The `'Dist'` positional assignment (pdf_process.py lines 118-130). -/
def distAssign (d : SystemData) (values : List String) : SystemData :=
  let n := values.length
  if 5 ≤ n then
    let d1 := dset d "Cond." (some (values.getD 0 ""))
    let d2 := dset d1 "pH" (some (values.getD 1 ""))
    let d3 := dset d2 "Temp" (some (values.getD 2 ""))
    let d4 := dset d3 "Free Chlorine" (some (values.getD (n - 2) ""))
    let d5 := dset d4 "Total Chlorine" (some (values.getD (n - 1) ""))
    let middle_values := (values.drop 3).take (n - 2 - 3)
    (middle_cols.zip middle_values).foldl (fun a p => dset a p.1 (some p.2)) d5
  else d

/-- The `'Nitrite'` positional assignment (pdf_process.py lines 131-138). -/
def nitriteAssign (d : SystemData) (values : List String) : SystemData :=
  let n := values.length
  if 3 ≤ n then
    let d1 := dset d "Cond." (some (values.getD 0 ""))
    let d2 := dset d1 "pH" (some (values.getD 1 ""))
    let d3 := dset d2 "NO2" (some (values.getD 2 ""))
    if 3 < n then dset d3 "Glycol" (some (values.getD 3 "")) else d3
  else d

/-- One row of positional-fallback mode (pdf_process.py lines 107-141):
the first cell must match `^\d+$|^\-$`; cells 1 and 2 are system type
and name; remaining nonempty cells are assigned positionally by system
type; keep the record only when it has a system type or a system name. -/
def positionalRow (row : List Cell) : Option SystemData :=
  if row.isEmpty || !(idxPattern (pyStr (row.headD none))) then none
  else
    let d0 : SystemData := [("#", some (pyStr (row.headD none)))]
    let system_type : Cell :=
      match row[1]? with
      | some (some v) => some (pyStrip v)
      | _ => none
    let system_name : Cell :=
      match row[2]? with
      | some (some v) => some (pyStrip v)
      | _ => none
    let values := rowValues row
    let d1 := dset (dset d0 "System Type" system_type) "System Name" system_name
    let d2 :=
      if truthyS system_type then
        let t := system_type.getD ""
        if containsSub t "Dist" then distAssign d1 values
        else if containsSub t "Nitrite" then nitriteAssign d1 values
        else d1
      else d1
    if truthyS (dget d2 "System Type") || truthyS (dget d2 "System Name") then some d2
    else none

/-- Row/Field assembly for one located table (pdf_process.py lines
95-141): exact-header mode zips `table[1:]` against the canonical
headers; positional-fallback mode scans every row of `table`. -/
def assembleTable (table : PTable) : List SystemData :=
  if fullTable table then (table.drop 1).filterMap exactRow
  else table.filterMap positionalRow

/-- The per-page inputs of the strategy chain (pdf_process.py lines
73-92).  The first three strategies call into `pdfplumber`
(`page.extract_table` with two settings dictionaries) and the geometric
word-clustering helper `get_table_from_page`, all functions of the
opaque page object; their return values are therefore environment
inputs, as is `page.extract_text()`. -/
structure PageInput where
  ruled : Option PTable
  textAligned : Option PTable
  clustered : Option PTable
  pageText : Option String
deriving DecidableEq

/-- The failure test applied after each strategy (pdf_process.py lines
77, 80, 83, 89): `table is None or len(table) < 2`. -/
def tblFail (t : Option PTable) : Bool :=
  match t with
  | none => true
  | some tb => tb.length < 2

/-- The per-page strategy chain and assembly of `extract_data_from_pdf`
(pdf_process.py lines 73-141): the systems contributed by one page. -/
def processPage (p : PageInput) : List SystemData :=
  let t1 := p.ruled
  let t2 := if tblFail t1 then p.textAligned else t1
  let t3 := if tblFail t2 then p.clustered else t2
  if tblFail t3 then
    match p.pageText with
    | none => []
    | some txt =>
      let t4 := parse_table_from_text txt
      if t4.length < 2 then
        if txt ≠ "" then parse_vertical_table_from_text txt else []
      else assembleTable t4
  else assembleTable (t3.getD [])

/-! ## Embedding of `src/data_processing/report_processor.py` -/

/-- One row of the `reports` table (report_processor.py lines 55-63). -/
structure ReportRow where
  rid : ℕ
  filename : String
  facility : String
  date_value : Option String
  chemist : String
deriving DecidableEq

/-- One row of the `systems` table (report_processor.py lines 71-95). -/
structure SystemRow where
  report_id : ℕ
  system_name : String
  cond : Option ℚ
  ph : Option ℚ
  temp : Option ℚ
  p_alk : Option ℚ
  m_alk : Option ℚ
  chloride : Option ℚ
  hardness : Option ℚ
  calcium : Option ℚ
  po4 : Option ℚ
  so3 : Option ℚ
  mo : Option ℚ
  no2 : Option ℚ
  live_atp : Option ℚ
  glycol : Option String
  free_chlorine : Option ℚ
  total_chlorine : Option ℚ
  max_temp : Option ℚ
  comment : Option String
deriving DecidableEq

/-- The SQLite database state: the rows of the two tables, plus the next
`AUTOINCREMENT` id for `reports`.  The `CREATE TABLE IF NOT EXISTS`
statements (lines 55-100) affect only the schema, never rows. -/
structure DB where
  reports : List ReportRow
  systems : List SystemRow
  nextId : ℕ
deriving DecidableEq

/-- Whether a run of `process_reports` returned normally or was aborted
by an uncaught exception. -/
inductive RunOutcome
  | completed
  | aborted (msg : String)
deriving DecidableEq

/-- The database state after a run together with its outcome; rows
committed before an abort persist (each insert is followed by
`conn.commit()`). -/
structure RunResult where
  db : DB
  outcome : RunOutcome
deriving DecidableEq

/-- What the extraction libraries return for one file (lines 133-160):
the whole-document text and the raw tables, all cells already strings
(`''` for missing cells after the per-cell cleaning). -/
structure Extraction where
  full_text : String
  tables : List (List (List String))
deriving DecidableEq

/-- One directory entry of the input folder.  The calls into
`python-docx`/`pdfplumber` (lines 133-160) are environment inputs
carried by `extracted`; `none` models an extraction exception, which is
caught, logged and skipped.  The document-level header fields
facility/date/chemist are pure regex functions of the extracted text
(lines 168-209) whose string values do not affect any claim; they enter
the model as per-file inputs. -/
structure FileInput where
  filename : String
  size : ℕ
  extracted : Option Extraction
  facility : String
  date_value : Option String
  chemist : String
deriving DecidableEq

/-- The mutable state of one `process_reports` call: the database and
whether the function-local name `to_float` has been bound yet (the
`def` statement at line 293 executes inside the row loop, after the
call sites at lines 279/281). -/
structure Sess where
  db : DB
  tf : Bool
deriving DecidableEq

/-- Fold a fallible step over a list, stopping at the first error. -/
def foldE {σ ε α : Type} (f : σ → α → Except ε σ) : σ → List α → Except ε σ
  | s, [] => .ok s
  | s, a :: rest =>
    match f s a with
    | .ok s' => foldE f s' rest
    | .error e => .error e

/-- The header-relevance keys (report_processor.py line 238). -/
def relevantHeaderKeys : List String :=
  ["Cond.", "pH", "P Alk", "P Alkalinity", "System Type", "Conductivity", "uS/cm"]

/-- The numeric field keys cleared when a glycol-looking value is
relocated (report_processor.py lines 263-274). -/
def numericClearKeys : List String :=
  ["p_alkalinity_caco3_(mg/l)", "p_alkalinity",
   "m_alkalinity_caco3_(mg/l)", "m_alkalinity",
   "hardness_caco3_(mg/l)", "hardness", "hardnes_s",
   "ca_(mg/l)", "ca_caco3_(mg/l)", "ca", "calcium",
   "cond_(µs/cm)", "cond",
   "ph",
   "temp_(°c)", "temp",
   "cl_(mg/l)", "cl", "chloride",
   "po4_(mg/l)", "po4",
   "no2_(mg/l)", "no2"]

/-- The substitution `re.sub(r'\s+', '_', s)`: replace every maximal whitespace run by a
single underscore. -/
def collapseWsAux : Bool → List Char → List Char
  | _, [] => []
  | inRun, c :: rest =>
    if c.isWhitespace then
      if inRun then collapseWsAux true rest else '_' :: collapseWsAux true rest
    else c :: collapseWsAux false rest

/-- The substitution `re.sub(r'\s+', '_', s)` on strings. -/
def collapseWsUnderscore (s : String) : String :=
  String.mk (collapseWsAux false s.toList)

/-- Header normalization (report_processor.py line 243):

    re.sub(r'\s+', '_', h.replace('.', '').replace('\n', '')
      .replace('Âµ', 'µ').replace('Â°', '°')).lower().strip()
-/
def normalizeHeader (h : String) : String :=
  pyStrip (pyLower (collapseWsUnderscore
    (pyReplace (pyReplace (pyReplace (pyReplace h "." "") "\n" "") "Âµ" "µ") "Â°" "°")))

/-- The relevance string `header_str` (report_processor.py line 237):
`''.join(header_row).lower().replace('âµ', 'µ').replace('â°', '°')`. -/
def headerStr (header_row : List String) : String :=
  pyReplace (pyReplace (pyLower (String.mk (header_row.map String.toList).flatten)) "âµ" "µ") "â°" "°"

/-- Python `d.get(k, '')`: the stored value, or `''` when the key is absent. -/
def dgetD (d : SystemData) (k : String) : Option String :=
  match d with
  | [] => some ""
  | p :: t => if p.1 = k then p.2 else dgetD t k

/-- One item of the special-handling loop (report_processor.py lines
258-281), over a snapshot of the row dictionary's items: relocate
glycol-looking values (clearing known numeric fields), and coerce ATP
values.  The ATP branch calls `to_float`, a local name of
`process_reports` that the `def` at line 293 has not yet bound when no
earlier row reached it (`tf = false`): referencing it raises
`UnboundLocalError`, outside any `try`. -/
def specialStep (tf : Bool) (st : SystemData × Option String × Option ℚ)
    (item : String × Cell) : Except String (SystemData × Option String × Option ℚ) :=
  let d := st.1
  let gly := st.2.1
  let atp := st.2.2
  let key := item.1
  match item.2 with
  | some v =>
    if v ≠ "" then
      let vl := pyLower v
      let dg :=
        if containsSub vl "glycol" || (containsSub v "%" && containsSub vl "f") then
          ((if numericClearKeys.contains key then dset d key none else d), some v)
        else (d, gly)
      if containsSub (pyLower key) "atp" then
        if ¬ tf then
          .error "UnboundLocalError: cannot access local variable to_float"
        else if containsSub v "|" then
          .ok (dg.1, dg.2, to_float (some (pyStrip ((pySplit v '|').headD ""))))
        else .ok (dg.1, dg.2, to_float (some v))
      else .ok (dg.1, dg.2, atp)
    else .ok st
  | none => .ok st

/-- Processing of one data row of a relevant table
(report_processor.py lines 246-345).

Two hazards of the source are modelled as `Except.error`, since they
are raised outside any `try` and escape `process_reports`:
* the `UnboundLocalError` of `specialStep` above;
* when every system-name candidate is falsy and the final
  `d.get('', '')` returned a stored `None`, line 286 computes
  `str + ' ' + None`, a `TypeError`.

The terminal `INSERT` (lines 332-340) builds a `VALUES` tuple whose
last component is the name `comment`, assigned nowhere in
`process_reports` nor at module scope; evaluating the tuple raises
`NameError` inside the `try`, the `except Exception` at line 343 logs
and continues, and no `systems` row is ever inserted.  The column
values are computed below exactly as in lines 302-324 and end up in the
dead `_values_tuple` binding, mirroring the discarded tuple. -/
def processRow (rid : ℕ) (headers : List String) (s : Sess) (row : List String) :
    Except (Sess × String) Sess :=
  if ¬ row.any (fun r => r ≠ "") then .ok s
  else
    let row1 := row ++ List.replicate (headers.length - row.length) ""
    let vals := row1.map (fun r => if r = "" then (none : Cell) else some (pyStrip r))
    let d0 := (headers.zip vals).foldl (fun a p => dset a p.1 p.2) ([] : SystemData)
    match foldE (fun st item => specialStep s.tf st item)
        (d0, (none : Option String), (none : Option ℚ)) d0 with
    | .error m => .error (s, m)
    | .ok dga =>
      let d := dga.1
      let gly := dga.2.1
      let atp := dga.2.2
      let sn0 := pyOr (dgetD d "system_name")
        (pyOr (dgetD d "gwt_names") (pyOr (dgetD d "water_samples") (dgetD d "")))
      match sn0 with
      | none => .error (s, "TypeError: can only concatenate str (not NoneType) to str")
      | some sn =>
        let st0 := (pyOr (dgetD d "system_type") (some "")).getD ""
        let system_name := pyStrip (st0 ++ " " ++ sn)
        if system_name = "" then .ok s
        else
          let s1 : Sess := ⟨s.db, true⟩
          let cond := to_float (pyOr (dget d "cond") (dget d "cond_(µs/cm)"))
          let ph := to_float (dget d "ph")
          let temp := to_float (pyOr (dget d "temp") (dget d "temp_(°c)"))
          let p_alk := to_float (pyOr (dget d "p_alk")
            (pyOr (dget d "p_alkalinity_caco3_(mg/l)")
              (pyOr (dget d "p_alkalinity") (dget d "p_alkalinity_caco3_(mg/l)"))))
          let m_alk := to_float (pyOr (dget d "m_alk")
            (pyOr (dget d "m_alkalinity_caco3_(mg/l)")
              (pyOr (dget d "m_alkalinity") (dget d "m_alkalinity_caco3_(mg/l)"))))
          let chloride := to_float (pyOr (dget d "chloride")
            (pyOr (dget d "cl_(mg/l)") (dget d "cl")))
          let hardness := to_float (pyOr (dget d "hardness")
            (pyOr (dget d "hardnes_s") (dget d "hardness_caco3_(mg/l)")))
          let calcium := to_float (pyOr (dget d "calcium")
            (pyOr (dget d "ca_(mg/l)") (pyOr (dget d "ca_caco3_(mg/l)") (dget d "ca"))))
          let po4 := to_float (pyOr (dget d "po4") (dget d "po4_(mg/l)"))
          let so3 := to_float (pyOr (dget d "so2") (dget d "so3"))
          let mo := to_float (dget d "mo")
          let no2 := to_float (pyOr (dget d "no2") (dget d "no2_(mg/l)"))
          let live_atp :=
            match atp with
            | some q => some q
            | none =>
              let live_val := pyOr (dget d "live_atp") (dget d "atp_live_|_dead")
              if truthyS live_val then
                let lv := live_val.getD ""
                if containsSub lv "|" then to_float (some (pyStrip ((pySplit lv '|').headD "")))
                else to_float (some lv)
              else none
          let glycol := pyOr gly (dget d "glycol")
          let free_chlorine := to_float (pyOr (dget d "free_chlorine") (dget d "free_chlorine_ppm"))
          let total_chlorine := to_float (pyOr (dget d "total_chlorine") (dget d "total_chlorine_ppm"))
          let max_temp := to_float (dget d "max_temp")
          let _values_tuple := (rid, system_name, cond, ph, temp, p_alk, m_alk,
            chloride, hardness, calcium, po4, so3, mo, no2, live_atp, glycol,
            free_chlorine, total_chlorine, max_temp)
          if s1.db.systems.any (fun r => r.report_id = rid ∧ r.system_name = system_name) then
            .ok s1
          else
            .ok s1

/-- Processing of one extracted table (report_processor.py lines
231-345): skip tables with fewer than two rows or without a relevant
header, normalize the nonblank headers, then process each data row.
(Line 236's `str(h) if h is not None else ''` is a no-op here: the
extraction already produced strings.) -/
def processTable (rid : ℕ) (s : Sess) (table : List (List String)) :
    Except (Sess × String) Sess :=
  if table.length < 2 then .ok s
  else
    let header_row := table.headD []
    let header_str := headerStr header_row
    if ¬ relevantHeaderKeys.any (fun k => containsSub header_str (pyLower k)) then .ok s
    else
      let headers := (header_row.filter (fun h => pyStrip h ≠ "")).map normalizeHeader
      foldE (processRow rid headers) s (table.drop 1)

/-- Per-file processing of `process_reports` (report_processor.py lines
121-345): skip empty files, failed extractions, and files with no
extracted text; skip the whole file when its filename already has a
`reports` row (lines 212-217, `continue`); otherwise insert the
`reports` row (committed at line 224) and process the tables. -/
def processFile (s : Sess) (f : FileInput) : Except (Sess × String) Sess :=
  if f.size = 0 then .ok s
  else
    match f.extracted with
    | none => .ok s
    | some ext =>
      if pyStrip ext.full_text = "" then .ok s
      else if s.db.reports.any (fun r => r.filename = f.filename) then .ok s
      else
        let rid := s.db.nextId
        let db1 : DB := ⟨s.db.reports ++ [⟨rid, f.filename, f.facility, f.date_value, f.chemist⟩],
          s.db.systems, rid + 1⟩
        foldE (fun acc t => processTable rid acc t) ⟨db1, s.tf⟩ ext.tables

/-- The orchestrator `process_reports(reports_path, db_path)` (report_processor.py lines
28-354): filter the directory listing to `.docx`/`.pdf` files (line
118), then process each file in order.  An uncaught exception aborts
the run; rows committed before the abort persist. -/
def processReports (listing : List FileInput) (db : DB) : RunResult :=
  let files := listing.filter
    (fun f => pyEndsWith (pyLower f.filename) ".docx" || pyEndsWith (pyLower f.filename) ".pdf")
  match foldE processFile ⟨db, false⟩ files with
  | .ok s => ⟨s.db, .completed⟩
  | .error e => ⟨e.1.db, .aborted e.2⟩

/-! ## Concrete inputs used by the claim theorems and witnesses -/

/-- The C3 counterexample table: its rows have 3 and 5 cells, so
positional-fallback mode is selected, and the data row's first cell is
`"-"`. -/
def c3Table : PTable :=
  [[some "#", some "System Type", some "System Name"],
   [some "-", some "Dist", some "Loop", some "1", some "2"]]

/-- The C4 counterexample table: the header row has 1 cell, every data
row has the canonical 21 cells. -/
def c4Table : PTable :=
  [[some "h"], [some "1", some "Dist", some "Loop"] ++ List.replicate 18 (some "x")]

/-- The C4 witness table: two canonical 21-cell rows. -/
def c4wTable : PTable :=
  [List.replicate 21 (some "x"), List.replicate 21 (some "x")]

/-- Witness inputs for C5: a page whose ruled-line strategy yields one
row but whose text-alignment strategy yields a full table, and a page
where every strategy fails. -/
def c5Page1 : PageInput :=
  ⟨some [[some "1"]], some c4wTable, none, none⟩

/-- A page on which every strategy fails: no structural tables and a
text that none of the text parsers can read rows from. -/
def c5Page6 : PageInput :=
  ⟨none, none, none, some "hello"⟩

/-- The C6 witness row: index `"2"`, type `"Dist"`, name `"Hot Loop"`,
and 13 nonempty trailing values. -/
def c6Row : List Cell :=
  [some "2", some "Dist", some "Hot Loop"] ++
    (["900", "7.9", "22", "150", "50", "5", "3", "0.2", "0.5", "0.1", "7",
      "1.2", "0.8"].map some)

/-- The early-skip gates of per-file processing (empty file, failed
extraction, blank text): files failing one of them never touch the
database (report_processor.py lines 124-126, 143-145, 158-164). -/
def skipsEarly (f : FileInput) : Bool :=
  (f.size = 0) ||
    (match f.extracted with
     | none => true
     | some ext => pyStrip ext.full_text = "")

/-- The C7 counterexample inputs: a store holding the `Document` row for
`r.pdf` but none of its systems (a partially-ingested document), and the
document itself, whose table carries the system `"Loop"`. -/
def c7File : FileInput :=
  ⟨"r.pdf", 1, some ⟨"Water report", [[["System Name", "pH"], ["Loop", "7.0"]]]⟩,
    "Fac", none, "Chem"⟩

/-- The partially-ingested store for the C7 counterexample. -/
def c7Db : DB := ⟨[⟨1, "r.pdf", "Fac", none, "Chem"⟩], [], 2⟩

/-- The C7 witness inputs: a second already-ingested document. -/
def c7wFile : FileInput :=
  ⟨"w.pdf", 1, some ⟨"Water report", [[["System Name", "pH"], ["Loop", "7.0"]]]⟩,
    "Fac", none, "Chem"⟩

/-- The store already holding the document row of `w.pdf`. -/
def c7wDb : DB := ⟨[⟨1, "w.pdf", "Fac", none, "Chem"⟩], [], 2⟩

/-- The C8 failing input: a document whose first relevant data row has a
`Live ATP` column with a nonempty value. -/
def c8File : FileInput :=
  ⟨"a.pdf", 1, some ⟨"Water report",
    [[["System Name", "pH", "Live ATP"], ["Loop", "7.0", "85 | 12"]]]⟩,
    "Fac", none, "Chem"⟩

/-- The C1 witness input file. -/
def c1File : FileInput :=
  ⟨"b.pdf", 1, some ⟨"Water report", [[["System Name", "pH"], ["Loop", "7.0"]]]⟩,
    "Fac", none, "Chem"⟩

/-! ## General lemmas about the embedding -/

/-- A character of `stripL l` is a character of `l`. -/
theorem mem_stripL {a : Char} {l : List Char} (h : a ∈ stripL l) : a ∈ l := by
  unfold stripL at h
  rw [List.mem_reverse] at h
  have h1 := (List.dropWhile_sublist _).subset h
  rw [List.mem_reverse] at h1
  exact (List.dropWhile_sublist _).subset h1

/-- If no character of `l` is whitespace, stripping is the identity. -/
theorem stripL_eq_self {l : List Char} (h : ∀ a ∈ l, a.isWhitespace = false) :
    stripL l = l := by
  unfold stripL
  have h1 : l.dropWhile Char.isWhitespace = l := by
    cases l with
    | nil => rfl
    | cons a t =>
      rw [List.dropWhile_cons_of_neg]
      simp [h a (by simp)]
  rw [h1]
  have h2 : l.reverse.dropWhile Char.isWhitespace = l.reverse := by
    cases hr : l.reverse with
    | nil => rfl
    | cons a t =>
      rw [List.dropWhile_cons_of_neg]
      have ha : a ∈ l := by
        rw [← List.mem_reverse, hr]; simp
      simp [h a ha]
  rw [h2, List.reverse_reverse]

/-- Mapping a function that fixes every element is the identity. -/
theorem map_eq_self_of_fix {α : Type} {f : α → α} {l : List α}
    (h : ∀ a ∈ l, f a = a) : l.map f = l := by
  induction l with
  | nil => rfl
  | cons a t ih =>
    simp only [List.map_cons]
    rw [h a (by simp), ih (fun b hb => h b (by simp [hb]))]

/-- Filtering with a predicate true on every element is the identity. -/
theorem filter_eq_self_of_true {α : Type} {p : α → Bool} {l : List α}
    (h : ∀ a ∈ l, p a = true) : l.filter p = l := by
  induction l with
  | nil => rfl
  | cons a t ih =>
    rw [List.filter_cons_of_pos (h a (by simp)),
      ih (fun b hb => h b (by simp [hb]))]

/-- Alphanumeric characters (in the modelled vocabulary) are not
whitespace. -/
theorem pyIsAlnum_not_ws {c : Char} (h : pyIsAlnum c = true) :
    c.isWhitespace = false := by
  by_contra hws
  rw [Bool.not_eq_false] at hws
  have hcases : c = ' ' ∨ c = '\t' ∨ c = '\r' ∨ c = '\n' := by
    unfold Char.isWhitespace at hws
    simp only [Bool.or_eq_true, decide_eq_true_eq] at hws
    tauto
  rcases hcases with h' | h' | h' | h' <;> rw [h'] at h <;> exact absurd h (by decide)

/-- Rebuilding a string from its character list is the identity. -/
theorem string_mk_toList (s : String) : String.mk s.toList = s := rfl

/-- A string containing `"Dist"` is nonempty. -/
theorem containsSub_dist_ne_empty {x : String} (h : containsSub x "Dist" = true) :
    x ≠ "" := by
  intro hx
  rw [hx] at h
  exact absurd h (by decide)

/-! ### Association-list dictionary lemmas -/

/-- Reading back the key just assigned. -/
theorem dget_dset_self (d : SystemData) (k : String) (v : Cell) :
    dget (dset d k v) k = v := by
  induction d with
  | nil => simp [dset, dget]
  | cons p t ih =>
    by_cases h : p.1 = k
    · simp [dset, dget, h]
    · simp [dset, dget, h, ih]

/-- Assigning one key does not change another. -/
theorem dget_dset_ne (d : SystemData) (k k' : String) (v : Cell) (h : k' ≠ k) :
    dget (dset d k v) k' = dget d k' := by
  have hkk : k ≠ k' := Ne.symm h
  induction d with
  | nil => simp [dset, dget, hkk]
  | cons p t ih =>
    by_cases hp : p.1 = k
    · simp [dset, dget, hp, hkk]
    · by_cases hp' : p.1 = k'
      · simp [dset, dget, hp, hp', h]
      · simp [dset, dget, hp, hp', ih]

/-- A fold of assignments over pairs whose keys all differ from `k`
leaves `k`'s value unchanged. -/
theorem dget_foldl_dset_not_mem {β : Type} (f : β → Cell) (pairs : List (String × β))
    (d : SystemData) (k : String) (h : ∀ p ∈ pairs, p.1 ≠ k) :
    dget (pairs.foldl (fun a p => dset a p.1 (f p.2)) d) k = dget d k := by
  induction pairs generalizing d with
  | nil => rfl
  | cons q t ih =>
    simp only [List.foldl_cons]
    rw [ih (dset d q.1 (f q.2)) (fun p hp => h p (by simp [hp])),
      dget_dset_ne _ _ _ _ (Ne.symm (h q (by simp)))]

/-- A fold of assignments over pairs with pairwise-distinct keys stores
each pair's value at its key. -/
theorem dget_foldl_dset_mem {β : Type} (f : β → Cell) (pairs : List (String × β))
    (d : SystemData) (k : String) (v : β)
    (hnd : (pairs.map Prod.fst).Nodup) (hmem : (k, v) ∈ pairs) :
    dget (pairs.foldl (fun a p => dset a p.1 (f p.2)) d) k = f v := by
  induction pairs generalizing d with
  | nil => cases hmem
  | cons q t ih =>
    simp only [List.map_cons, List.nodup_cons] at hnd
    rcases List.mem_cons.1 hmem with hq | ht
    · subst hq
      simp only [List.foldl_cons]
      rw [dget_foldl_dset_not_mem f t _ k
        (fun p hp hk => hnd.1 (hk ▸ List.mem_map.2 ⟨p, hp, rfl⟩)),
        dget_dset_self]
    · simp only [List.foldl_cons]
      exact ih (dset d q.1 (f q.2)) hnd.2 ht

/-- The keys of a zip are a sublist of the left operand. -/
theorem map_fst_zip_sublist {α β : Type} (l₁ : List α) (l₂ : List β) :
    ((l₁.zip l₂).map Prod.fst).Sublist l₁ := by
  induction l₁ generalizing l₂ with
  | nil => simp
  | cons a t ih =>
    cases l₂ with
    | nil => simp
    | cons b t₂ =>
      simp only [List.zip_cons_cons, List.map_cons]
      exact (ih t₂).cons₂ a

/-- Reading `getD` through `take`, inside the taken range. -/
theorem getD_take {α : Type} (l : List α) (n i : ℕ) (d : α) (h : i < n) :
    (l.take n).getD i d = l.getD i d := by
  induction l generalizing n i with
  | nil => simp
  | cons a t ih =>
    cases n with
    | zero => omega
    | succ m =>
      cases i with
      | zero => simp
      | succ j => simpa using ih m j (by omega)

/-- Reading `getD` through `drop`. -/
theorem getD_drop {α : Type} (l : List α) (n i : ℕ) (d : α) :
    (l.drop n).getD i d = l.getD (n + i) d := by
  induction l generalizing n with
  | nil => simp
  | cons a t ih =>
    cases n with
    | zero => simp
    | succ m => simp [Nat.succ_add, ih m]

/-! ## Claim C2 — the Value Coercer -/

/-- C2: `to_float` maps a raw cell string or `None` to a number or
`None`: it strips every character that is not a digit, `.` or `-`,
returns `None` on an empty remainder, parses the rest as a float, and
never raises (it is a total function into `Option ℚ`).  In particular
`"123.45 mg/L"` coerces to `123.45`, `""` and `None` coerce to `None`,
`"OK"` coerces to `None`, and the dual-value path of lines 317-320 takes
the first `|`-component before coercion, so `"85 | 12"` coerces to
`85.0`. -/
theorem c2_value_coercer :
    (∀ v : String, to_float (some v) =
      (if stripNonNumeric v = "" then none else pyFloat? (stripNonNumeric v))) ∧
    to_float (some "123.45 mg/L") = some (123.45 : ℚ) ∧
    to_float none = none ∧
    to_float (some "") = none ∧
    to_float (some "OK") = none ∧
    coerce_dual "85 | 12" = some (85 : ℚ) := by
  refine ⟨?_, ?_, by decide, by decide, by decide, by decide⟩
  · intro v
    by_cases hv : v = ""
    · subst hv; decide
    · simp [to_float, hv]
  · have h : to_float (some "123.45 mg/L") = some (mkRat 12345 100) := by decide
    rw [h]
    norm_num [mkRat]

/-! ## Claim C9 — idempotence of the Column Normalizer -/

/-- Every character produced by `cleanChars` is either an inert
alphanumeric (never `µ`, never whitespace) or the underscore introduced
for a space. -/
theorem cleanChars_chars {l : List Char} {c : Char} (hc : c ∈ cleanChars l) :
    (pyIsAlnum c = true ∧ c ≠ 'µ' ∧ c.isWhitespace = false) ∨ c = '_' := by
  unfold cleanChars at hc
  simp only [List.mem_map] at hc
  obtain ⟨x, hx, hfx⟩ := hc
  by_cases hsp : x = ' '
  · right; rw [← hfx, hsp]; rfl
  · left
    rw [List.mem_filter] at hx
    have hx2 := hx.2
    simp only [Bool.or_eq_true, decide_eq_true_eq] at hx2
    have hal : pyIsAlnum x = true := hx2.resolve_right hsp
    have hcx : c = x := by rw [← hfx]; simp [hsp]
    subst hcx
    refine ⟨hal, ?_, pyIsAlnum_not_ws hal⟩
    have hx1 := mem_stripL hx.1
    unfold cleanStep1 at hx1
    rw [List.mem_filter] at hx1
    have hx3 := hx1.1
    rw [List.mem_filter] at hx3
    have hx4 := hx3.1
    simp only [List.mem_map] at hx4
    obtain ⟨y, _, hy⟩ := hx4
    intro hmu
    rw [hmu] at hy
    by_cases hyy : y = 'µ' <;> simp [hyy] at hy

/-- If every character of `l` is an inert alphanumeric, `cleanChars`
fixes `l`. -/
theorem cleanChars_fixed {l : List Char}
    (h : ∀ c ∈ l, pyIsAlnum c = true ∧ c ≠ 'µ' ∧ c.isWhitespace = false) :
    cleanChars l = l := by
  unfold cleanChars cleanStep1
  have h1 : l.map (fun c => if c = '\n' then ' ' else c) = l := by
    refine map_eq_self_of_fix (fun a ha => ?_)
    have := (h a ha).2.2
    have hne : a ≠ '\n' := by intro hh; subst hh; simp [Char.isWhitespace] at this
    simp [hne]
  rw [h1]
  have h2 : l.map (fun c => if c = 'µ' then 'u' else c) = l := by
    refine map_eq_self_of_fix (fun a ha => ?_)
    simp [(h a ha).2.1]
  rw [h2]
  have h3 : l.filter (fun c => c ≠ '.') = l := by
    refine filter_eq_self_of_true (fun a ha => ?_)
    have := (h a ha).1
    have hne : a ≠ '.' := by intro hh; subst hh; simp [pyIsAlnum] at this
    simp [hne]
  rw [h3]
  have h4 : l.filter (fun c => c ≠ '°') = l := by
    refine filter_eq_self_of_true (fun a ha => ?_)
    have := (h a ha).1
    have hne : a ≠ '°' := by intro hh; subst hh; simp [pyIsAlnum] at this
    simp [hne]
  rw [h4]
  have h5 : stripL l = l := stripL_eq_self (fun a ha => (h a ha).2.2)
  rw [h5]
  have h6 : l.filter (fun c => pyIsAlnum c || c = ' ') = l := by
    refine filter_eq_self_of_true (fun a ha => ?_)
    simp [(h a ha).1]
  rw [h6]
  refine map_eq_self_of_fix (fun a ha => ?_)
  have := (h a ha).1
  have hne : a ≠ ' ' := by intro hh; subst hh; simp [pyIsAlnum] at this
  simp [hne]

/-- C9 counterexample: `clean_column` is not idempotent.  The raw label
`"P Alk"` cleans to `"P_Alk"`, but cleaning `"P_Alk"` again yields
`"PAlk"`: the second application deletes the underscore the first
introduced (its alphanumeric-or-space filter removes `_`). -/
theorem c9_counterexample :
    clean_column (some "P Alk") = some "P_Alk" ∧
    clean_column (some "P_Alk") = some "PAlk" ∧
    clean_column (some "P_Alk") ≠ some "P_Alk" := by
  refine ⟨by decide, by decide, by decide⟩

/-- C9 amended: `clean_column` is idempotent exactly on labels whose
cleaned form contains no underscore — if `clean_column` maps `s` to `w`
and `w` is underscore-free, then `w` cleans to itself.  (On any output
containing `_` — i.e. whenever the raw label had internal whitespace —
a second application strips the underscores, as in the counterexample.) -/
theorem c9_clean_column_conditionally_idempotent (s w : String)
    (hw : clean_column (some s) = some w) (hu : '_' ∉ w.toList) :
    clean_column (some w) = some w := by
  have hwl : w.toList = cleanChars s.toList := by
    unfold clean_column at hw
    injection hw with hw'
    rw [← hw']
    rfl
  have hfix : cleanChars w.toList = w.toList := by
    refine cleanChars_fixed (fun c hc => ?_)
    have hc' : c ∈ cleanChars s.toList := by rw [← hwl]; exact hc
    rcases cleanChars_chars hc' with h | h
    · exact h
    · exact absurd (h ▸ hc) hu
  have hcc : clean_column (some w) = some (String.mk (cleanChars w.toList)) := rfl
  rw [hcc, hfix, string_mk_toList]

/-- Witness for C9's amended statement at the already-clean label `"pH"`. -/
theorem c9_witness : clean_column (some "pH") = some "pH" :=
  c9_clean_column_conditionally_idempotent "pH" "pH" (by decide) (by decide)

/-! ## Claims C3, C4, C5, C6 — table location and row assembly -/

/-- The assignment `distAssign` writes only Cond./pH/Temp, the two chlorines, and the
middle columns; every other key keeps its value. -/
theorem dget_distAssign_of_ne (d : SystemData) (values : List String) (k : String)
    (h1 : k ≠ "Cond.") (h2 : k ≠ "pH") (h3 : k ≠ "Temp") (h4 : k ≠ "Free Chlorine")
    (h5 : k ≠ "Total Chlorine") (h6 : k ∉ middle_cols) :
    dget (distAssign d values) k = dget d k := by
  simp only [distAssign]
  by_cases h : 5 ≤ values.length
  · simp only [h, if_true]
    rw [dget_foldl_dset_not_mem]
    · rw [dget_dset_ne _ _ _ _ h5, dget_dset_ne _ _ _ _ h4, dget_dset_ne _ _ _ _ h3,
        dget_dset_ne _ _ _ _ h2, dget_dset_ne _ _ _ _ h1]
    · intro p hp hk
      exact h6 (hk ▸ (List.of_mem_zip hp).1)
  · simp [h]

/-- The assignment `nitriteAssign` writes only Cond./pH/NO2/Glycol; every other key
keeps its value. -/
theorem dget_nitriteAssign_of_ne (d : SystemData) (values : List String) (k : String)
    (h1 : k ≠ "Cond.") (h2 : k ≠ "pH") (h3 : k ≠ "NO2") (h4 : k ≠ "Glycol") :
    dget (nitriteAssign d values) k = dget d k := by
  simp only [nitriteAssign]
  by_cases h : 3 ≤ values.length
  · simp only [h, if_true]
    by_cases h' : 3 < values.length
    · simp only [h', if_true]
      rw [dget_dset_ne _ _ _ _ h4, dget_dset_ne _ _ _ _ h3,
        dget_dset_ne _ _ _ _ h2, dget_dset_ne _ _ _ _ h1]
    · simp only [h', if_false]
      rw [dget_dset_ne _ _ _ _ h3, dget_dset_ne _ _ _ _ h2, dget_dset_ne _ _ _ _ h1]
  · simp [h]

/-- C3 counterexample: in positional-fallback mode a row whose first
cell is `"-"` is NOT excluded.  On `c3Table` the assembly produces
exactly one record, and that record's `'#'` field is the dash row's
first cell — the index regex `^\d+$|^\-$` of pdf_process.py line 108
explicitly admits `"-"`. -/
theorem c3_counterexample :
    (assembleTable c3Table).length = 1 ∧
    dget ((assembleTable c3Table).headD []) "#" = some "-" :=
  ⟨by decide, by decide⟩

/-- C3 amended: a row whose first cell is `"-"` is excluded in
exact-header mode (pdf_process.py line 99), but in positional-fallback
mode the index pattern admits `"-"` and such a row yields a record
whenever its system type strips to a non-blank string, or — the type
being blank or absent — its system name does (the guard at line 135 is a
disjunction over the two fields). -/
theorem c3_dash_row_by_mode :
    (∀ row : List Cell, row.headD none = some "-" → exactRow row = none) ∧
    (∀ (row : List Cell) (v : String), row.headD none = some "-" →
      row[1]? = some (some v) → pyStrip v ≠ "" →
      ∃ d, positionalRow row = some d ∧ dget d "#" = some "-") ∧
    (∀ (row : List Cell) (c1 : Cell) (w : String), row.headD none = some "-" →
      row[1]? = some c1 → truthyS (Option.map pyStrip c1) = false →
      row[2]? = some (some w) → pyStrip w ≠ "" →
      ∃ d, positionalRow row = some d ∧ dget d "#" = some "-") := by
  refine ⟨?_, ?_, ?_⟩
  · intro row h
    unfold exactRow
    have hcond : (row.isEmpty ||
        [some "", some "-", (none : Cell)].contains (row.headD none)) = true := by
      rw [h]
      simp
    rw [if_pos hcond]
  · intro row v h0 h1 hv
    obtain ⟨rest2, rfl⟩ : ∃ r2, row = some "-" :: some v :: r2 := by
      cases row with
      | nil => cases h0
      | cons a t =>
        cases t with
        | nil => cases h1
        | cons b t2 =>
          have ha : a = some "-" := by simpa using h0
          have hb : b = some v := by simpa using h1
          exact ⟨t2, by rw [ha, hb]⟩
    have hty : truthyS (some (pyStrip v)) = true := by simp [truthyS, hv]
    have hidx : idxPattern (pyStr (some "-")) = true := by decide
    simp only [positionalRow, List.headD_cons, List.isEmpty_cons, List.getElem?_cons_succ,
      List.getElem?_cons_zero, Option.getD_some, hidx, hty, Bool.not_true, Bool.or_self,
      Bool.false_or, Bool.or_false, if_true, Bool.false_eq_true, if_false]
    set sn : Cell := (match rest2[0]? with
        | some (some w) => some (pyStrip w)
        | _ => none) with hsn
    set d1 : SystemData :=
      dset (dset [("#", some (pyStr (some "-")))] "System Type" (some (pyStrip v)))
        "System Name" sn with hd1
    set vals := rowValues (some "-" :: some v :: rest2) with hvals
    have hD1t : dget d1 "System Type" = some (pyStrip v) := by
      rw [hd1, dget_dset_ne _ _ _ _ (by decide), dget_dset_self]
    have hD1h : dget d1 "#" = some "-" := by
      rw [hd1, dget_dset_ne _ _ _ _ (by decide), dget_dset_ne _ _ _ _ (by decide)]
      rfl
    have hT : dget (if containsSub (pyStrip v) "Dist" = true then distAssign d1 vals
        else if containsSub (pyStrip v) "Nitrite" = true then nitriteAssign d1 vals else d1)
        "System Type" = some (pyStrip v) := by
      split_ifs with hA hB
      · rw [dget_distAssign_of_ne _ _ _ (by decide) (by decide) (by decide) (by decide)
          (by decide) (by decide), hD1t]
      · rw [dget_nitriteAssign_of_ne _ _ _ (by decide) (by decide) (by decide) (by decide),
          hD1t]
      · exact hD1t
    have hH : dget (if containsSub (pyStrip v) "Dist" = true then distAssign d1 vals
        else if containsSub (pyStrip v) "Nitrite" = true then nitriteAssign d1 vals else d1)
        "#" = some "-" := by
      split_ifs with hA hB
      · rw [dget_distAssign_of_ne _ _ _ (by decide) (by decide) (by decide) (by decide)
          (by decide) (by decide), hD1h]
      · rw [dget_nitriteAssign_of_ne _ _ _ (by decide) (by decide) (by decide) (by decide),
          hD1h]
      · exact hD1h
    rw [hT, hty, Bool.true_or]
    exact ⟨_, by simp, hH⟩
  · intro row c1 w h0 h1 hts h2 hw
    obtain ⟨rest3, rfl⟩ : ∃ r3, row = some "-" :: c1 :: some w :: r3 := by
      cases row with
      | nil => cases h0
      | cons a t =>
        cases t with
        | nil => cases h1
        | cons b t2 =>
          cases t2 with
          | nil => cases h2
          | cons c t3 =>
            have ha : a = some "-" := by simpa using h0
            have hb : b = c1 := by simpa using h1
            have hcw : c = some w := by simpa using h2
            exact ⟨t3, by rw [ha, hb, hcw]⟩
    have hidx : idxPattern (pyStr (some "-")) = true := by decide
    have hnm : truthyS (some (pyStrip w)) = true := by simp [truthyS, hw]
    have hstf : truthyS (none : Cell) = false := rfl
    cases c1 with
    | none =>
      simp only [positionalRow, List.headD_cons, List.isEmpty_cons, List.getElem?_cons_succ,
        List.getElem?_cons_zero, Option.getD_some, hidx, hstf, Bool.not_true, Bool.or_self,
        Bool.false_or, Bool.or_false, if_true, Bool.false_eq_true, if_false]
      set d1 : SystemData :=
        dset (dset [("#", some (pyStr (some "-")))] "System Type" none) "System Name"
          (some (pyStrip w)) with hd1
      have hD1t : dget d1 "System Type" = none := by
        rw [hd1, dget_dset_ne _ _ _ _ (by decide), dget_dset_self]
      have hD1n : dget d1 "System Name" = some (pyStrip w) := by
        rw [hd1, dget_dset_self]
      have hD1h : dget d1 "#" = some "-" := by
        rw [hd1, dget_dset_ne _ _ _ _ (by decide), dget_dset_ne _ _ _ _ (by decide)]
        rfl
      rw [hD1t, hD1n, hstf, hnm, Bool.false_or]
      exact ⟨d1, by simp, hD1h⟩
    | some v =>
      simp only [Option.map_some'] at hts
      simp only [positionalRow, List.headD_cons, List.isEmpty_cons, List.getElem?_cons_succ,
        List.getElem?_cons_zero, Option.getD_some, hidx, hts, Bool.not_true, Bool.or_self,
        Bool.false_or, Bool.or_false, if_true, Bool.false_eq_true, if_false]
      set d1 : SystemData :=
        dset (dset [("#", some (pyStr (some "-")))] "System Type" (some (pyStrip v)))
          "System Name" (some (pyStrip w)) with hd1
      have hD1t : dget d1 "System Type" = some (pyStrip v) := by
        rw [hd1, dget_dset_ne _ _ _ _ (by decide), dget_dset_self]
      have hD1n : dget d1 "System Name" = some (pyStrip w) := by
        rw [hd1, dget_dset_self]
      have hD1h : dget d1 "#" = some "-" := by
        rw [hd1, dget_dset_ne _ _ _ _ (by decide), dget_dset_ne _ _ _ _ (by decide)]
        rfl
      rw [hD1t, hD1n, hts, hnm, Bool.false_or]
      exact ⟨d1, by simp, hD1h⟩

/-- Witness for C3's amended statement: the dash row of `c3Table` is
dropped by `exactRow` but produces a positional record, both when the
system-type cell of the dash row is non-blank and — on a row with a
blank type cell — when only the system-name cell is non-blank. -/
theorem c3_witness :
    exactRow [some "-", some "Dist", some "Loop", some "1", some "2"] = none ∧
    (∃ d, positionalRow [some "-", some "Dist", some "Loop", some "1", some "2"] = some d ∧
      dget d "#" = some "-") ∧
    (∃ d, positionalRow [some "-", some "", some "Loop"] = some d ∧
      dget d "#" = some "-") :=
  ⟨c3_dash_row_by_mode.1 _ rfl,
   c3_dash_row_by_mode.2.1 [some "-", some "Dist", some "Loop", some "1", some "2"] "Dist"
     rfl rfl (by decide),
   c3_dash_row_by_mode.2.2 [some "-", some "", some "Loop"] (some "") "Loop"
     rfl rfl (by decide) rfl (by decide)⟩

/-- C4 counterexample: exact-header mode is NOT selected if-and-only-if
every data row's cell count is canonical.  In `c4Table` every data row
(every row of `table[1:]`) has exactly `len(known_headers)` cells, yet
`full_table` is false — the `all(... for row in table if row)` check at
pdf_process.py line 95 also counts the header row. -/
theorem c4_counterexample :
    ((c4Table.drop 1).all (fun r => r.length = known_headers.length)) = true ∧
    fullTable c4Table = false :=
  ⟨by decide, by decide⟩

/-- C4 amended: exact-header mode is selected iff every NONEMPTY row of
the whole table — the header row included — has exactly the canonical
number of cells (empty rows are ignored by the check); when `full_table`
holds the assembly zips `table[1:]` against the canonical headers, and
otherwise every row goes through the positional-fallback path. -/
theorem c4_exact_header_selection :
    (∀ table : PTable, fullTable table = true ↔
      ∀ r ∈ table, r ≠ [] → r.length = known_headers.length) ∧
    (∀ table : PTable, fullTable table = true →
      assembleTable table = (table.drop 1).filterMap exactRow) ∧
    (∀ table : PTable, fullTable table = false →
      assembleTable table = table.filterMap positionalRow) := by
  refine ⟨?_, ?_, ?_⟩
  · intro table
    unfold fullTable
    rw [List.all_eq_true]
    constructor
    · intro h r hr hne
      have hmem : r ∈ table.filter (fun r => ¬ r.isEmpty) := by
        rw [List.mem_filter]
        refine ⟨hr, ?_⟩
        simp [List.isEmpty_iff, hne]
      simpa using h r hmem
    · intro h r hr
      rw [List.mem_filter] at hr
      have hne : r ≠ [] := by
        intro hh
        rw [hh] at hr
        simp at hr
      simpa using h r hr.1 hne
  · intro table h
    simp [assembleTable, h]
  · intro table h
    simp [assembleTable, h]

/-- Witness for C4's amended statement on `c4wTable`. -/
theorem c4_witness :
    fullTable c4wTable = true ∧
    assembleTable c4wTable = (c4wTable.drop 1).filterMap exactRow := by
  have h := (c4_exact_header_selection.1 c4wTable).mpr (by decide)
  exact ⟨h, c4_exact_header_selection.2.1 c4wTable h⟩

/-- C5: the Table Locator tries its strategies in the fixed order
ruled-line, text-alignment, word-clustering, line-pattern text, vertical
label-run; a strategy succeeds exactly when it yields at least 2 rows,
otherwise the next is attempted (in particular a ruled-line result of
fewer than 2 rows falls through rather than ending the page); and when
every strategy fails the page contributes zero systems. -/
theorem c5_strategy_fallthrough :
    (∀ (p : PageInput) (t : PTable), p.ruled = some t → 2 ≤ t.length →
      processPage p = assembleTable t) ∧
    (∀ (p : PageInput) (t : PTable), tblFail p.ruled = true → p.textAligned = some t →
      2 ≤ t.length → processPage p = assembleTable t) ∧
    (∀ (p : PageInput) (t : PTable), tblFail p.ruled = true → tblFail p.textAligned = true →
      p.clustered = some t → 2 ≤ t.length → processPage p = assembleTable t) ∧
    (∀ (p : PageInput) (txt : String), tblFail p.ruled = true → tblFail p.textAligned = true →
      tblFail p.clustered = true → p.pageText = some txt →
      2 ≤ (parse_table_from_text txt).length →
      processPage p = assembleTable (parse_table_from_text txt)) ∧
    (∀ (p : PageInput) (txt : String), tblFail p.ruled = true → tblFail p.textAligned = true →
      tblFail p.clustered = true → p.pageText = some txt →
      (parse_table_from_text txt).length < 2 → txt ≠ "" →
      processPage p = parse_vertical_table_from_text txt) ∧
    (∀ p : PageInput, tblFail p.ruled = true → tblFail p.textAligned = true →
      tblFail p.clustered = true →
      (p.pageText = none ∨ ∃ txt, p.pageText = some txt ∧
        (parse_table_from_text txt).length < 2 ∧ parse_vertical_table_from_text txt = []) →
      processPage p = []) := by
  refine ⟨?_, ?_, ?_, ?_, ?_, ?_⟩
  · intro p t h1 h2
    have hf : tblFail (some t) = false := by
      simp [tblFail, Nat.not_lt.2 h2]
    simp [processPage, h1, hf]
  · intro p t h0 h1 h2
    have hf : tblFail (some t) = false := by
      simp [tblFail, Nat.not_lt.2 h2]
    simp [processPage, h0, h1, hf]
  · intro p t h0 h0' h1 h2
    have hf : tblFail (some t) = false := by
      simp [tblFail, Nat.not_lt.2 h2]
    simp [processPage, h0, h0', h1, hf]
  · intro p txt h0 h0' h0'' h1 h2
    simp [processPage, h0, h0', h0'', h1, Nat.not_lt.2 h2]
  · intro p txt h0 h0' h0'' h1 h2 h3
    simp [processPage, h0, h0', h0'', h1, h2, h3]
  · intro p h0 h0' h0'' hd
    rcases hd with h1 | ⟨txt, h1, h2, h3⟩
    · simp [processPage, h0, h0', h0'', h1]
    · by_cases he : txt = ""
      · subst he
        simp [processPage, h0, h0', h0'', h1, h2]
      · simp [processPage, h0, h0', h0'', h1, h2, h3, he]

/-- Witness for C5 at concrete pages: the one-row ruled result falls
through to the text-alignment table, and a page where all five
strategies fail contributes zero systems. -/
theorem c5_witness :
    processPage c5Page1 = assembleTable c4wTable ∧ processPage c5Page6 = [] :=
  ⟨c5_strategy_fallthrough.2.1 c5Page1 c4wTable (by decide) rfl (by decide),
   c5_strategy_fallthrough.2.2.2.2.2 c5Page6 (by decide) (by decide) (by decide)
     (Or.inr ⟨"hello", rfl, by decide, by decide⟩)⟩

/-- Indexed membership in a zip via `getD`. -/
theorem zip_getD_mem {α β : Type} (l₁ : List α) (l₂ : List β) (i : ℕ) (d₁ : α) (d₂ : β)
    (h : i < min l₁.length l₂.length) :
    (l₁.getD i d₁, l₂.getD i d₂) ∈ l₁.zip l₂ := by
  induction l₁ generalizing l₂ i with
  | nil => simp at h
  | cons a t ih =>
    cases l₂ with
    | nil => simp at h
    | cons b t₂ =>
      cases i with
      | zero => simp
      | succ j =>
        simp only [List.zip_cons_cons, List.getD_cons_succ]
        refine List.mem_cons_of_mem _ (ih t₂ j ?_)
        simp only [List.length_cons, Nat.lt_min] at h ⊢
        omega

/-- Keys of the middle-column assignment pairs avoid any non-middle key. -/
theorem not_mem_middle_pairs (vals : List String) (k : String) (hk : ¬ k ∈ middle_cols) :
    ∀ p ∈ middle_cols.zip ((vals.drop 3).take (vals.length - 2 - 3)), p.1 ≠ k :=
  fun _ hp he => hk (he ▸ (List.of_mem_zip hp).1)

/-- C6: in positional-fallback mode, a row whose system type contains
`"Dist"` and which has at least 5 nonempty trailing values yields a
record assigning `values[0]`, `values[1]`, `values[2]` to Cond./pH/Temp,
`values[n-2]`, `values[n-1]` to Free/Total Chlorine, and the values in
between positionally to the ordered middle columns P Alk, M Alk,
Chloride, Hardness, Calcium, PO4, SO2, Mo (`values[3+i]` to the `i`-th
middle column, for `i < min 8 (n-5)`; with 13 trailing values that is
exactly `values[3..10]` to the eight middle columns and `values[11..12]`
to the chlorines, as the witness checks). -/
theorem c6_dist_positional_assignment (row : List Cell) (t : String)
    (hidx : idxPattern (pyStr (row.headD none)) = true)
    (h1 : row[1]? = some (some t)) (hDist : containsSub (pyStrip t) "Dist" = true)
    (h5 : 5 ≤ (rowValues row).length) :
    ∃ d, positionalRow row = some d ∧
      dget d "Cond." = some ((rowValues row).getD 0 "") ∧
      dget d "pH" = some ((rowValues row).getD 1 "") ∧
      dget d "Temp" = some ((rowValues row).getD 2 "") ∧
      dget d "Free Chlorine" = some ((rowValues row).getD ((rowValues row).length - 2) "") ∧
      dget d "Total Chlorine" = some ((rowValues row).getD ((rowValues row).length - 1) "") ∧
      (∀ i : ℕ, i < min 8 ((rowValues row).length - 5) →
        dget d (middle_cols.getD i "") = some ((rowValues row).getD (3 + i) "")) := by
  obtain ⟨c0, rest2, rfl⟩ : ∃ c0 r2, row = c0 :: some t :: r2 := by
    cases row with
    | nil => cases h1
    | cons a t1 =>
      cases t1 with
      | nil => cases h1
      | cons b t2 =>
        have hb : b = some t := by simpa using h1
        exact ⟨a, t2, by rw [hb]⟩
  have hv : pyStrip t ≠ "" := containsSub_dist_ne_empty hDist
  have hty : truthyS (some (pyStrip t)) = true := by simp [truthyS, hv]
  rw [List.headD_cons] at hidx
  simp only [positionalRow, List.headD_cons, List.isEmpty_cons, List.getElem?_cons_succ,
    List.getElem?_cons_zero, Option.getD_some, hidx, hty, Bool.not_true, Bool.or_self,
    Bool.false_or, Bool.or_false, if_true, Bool.false_eq_true, if_false, hDist]
  set sn : Cell := (match rest2[0]? with
      | some (some w) => some (pyStrip w)
      | _ => none) with hsn
  set d1 : SystemData :=
    dset (dset [("#", some (pyStr c0))] "System Type" (some (pyStrip t)))
      "System Name" sn with hd1
  set vals := rowValues (c0 :: some t :: rest2) with hvals
  have hD1t : dget d1 "System Type" = some (pyStrip t) := by
    rw [hd1, dget_dset_ne _ _ _ _ (by decide), dget_dset_self]
  have hT : dget (distAssign d1 vals) "System Type" = some (pyStrip t) := by
    rw [dget_distAssign_of_ne _ _ _ (by decide) (by decide) (by decide) (by decide)
      (by decide) (by decide), hD1t]
  rw [hT, hty, Bool.true_or]
  refine ⟨distAssign d1 vals, by simp, ?_, ?_, ?_, ?_, ?_, ?_⟩
  · simp only [distAssign]
    rw [if_pos h5]
    rw [dget_foldl_dset_not_mem _ _ _ _ (not_mem_middle_pairs vals _ (by decide)),
      dget_dset_ne _ _ _ _ (by decide), dget_dset_ne _ _ _ _ (by decide),
      dget_dset_ne _ _ _ _ (by decide), dget_dset_ne _ _ _ _ (by decide), dget_dset_self]
  · simp only [distAssign]
    rw [if_pos h5]
    rw [dget_foldl_dset_not_mem _ _ _ _ (not_mem_middle_pairs vals _ (by decide)),
      dget_dset_ne _ _ _ _ (by decide), dget_dset_ne _ _ _ _ (by decide),
      dget_dset_ne _ _ _ _ (by decide), dget_dset_self]
  · simp only [distAssign]
    rw [if_pos h5]
    rw [dget_foldl_dset_not_mem _ _ _ _ (not_mem_middle_pairs vals _ (by decide)),
      dget_dset_ne _ _ _ _ (by decide), dget_dset_ne _ _ _ _ (by decide), dget_dset_self]
  · simp only [distAssign]
    rw [if_pos h5]
    rw [dget_foldl_dset_not_mem _ _ _ _ (not_mem_middle_pairs vals _ (by decide)),
      dget_dset_ne _ _ _ _ (by decide), dget_dset_self]
  · simp only [distAssign]
    rw [if_pos h5]
    rw [dget_foldl_dset_not_mem _ _ _ _ (not_mem_middle_pairs vals _ (by decide)),
      dget_dset_self]
  · intro i hi
    have hi' := Nat.lt_min.1 hi
    simp only [distAssign]
    rw [if_pos h5]
    have hlen_m : ((vals.drop 3).take (vals.length - 2 - 3)).length = vals.length - 5 := by
      rw [List.length_take, List.length_drop]
      omega
    have hnd : ((middle_cols.zip ((vals.drop 3).take (vals.length - 2 - 3))).map
        Prod.fst).Nodup :=
      (by decide : middle_cols.Nodup).sublist (map_fst_zip_sublist _ _)
    have hpair : ((middle_cols.getD i ""),
        (((vals.drop 3).take (vals.length - 2 - 3)).getD i "")) ∈
        middle_cols.zip ((vals.drop 3).take (vals.length - 2 - 3)) := by
      apply zip_getD_mem
      rw [Nat.lt_min, hlen_m]
      exact ⟨by rw [show middle_cols.length = 8 from rfl]; omega, by omega⟩
    rw [dget_foldl_dset_mem _ _ _ _ _ hnd hpair]
    congr 1
    rw [getD_take _ _ _ _ (by omega), getD_drop]

/-- Witness for C6 on the 13-value row: conductivity 900, pH 7.9,
temperature 22, first and last middle columns from `values[3]` and
`values[10]`, chlorines from `values[11..12]`. -/
theorem c6_witness :
    ∃ d, positionalRow c6Row = some d ∧
      dget d "Cond." = some "900" ∧ dget d "pH" = some "7.9" ∧
      dget d "Temp" = some "22" ∧ dget d "Free Chlorine" = some "1.2" ∧
      dget d "Total Chlorine" = some "0.8" ∧ dget d "P Alk" = some "150" ∧
      dget d "Mo" = some "7" := by
  obtain ⟨d, hd, hc, hp, ht, hf, htc, hmid⟩ :=
    c6_dist_positional_assignment c6Row "Dist" (by decide) (by decide) (by decide) (by decide)
  have hm0 := hmid 0 (by decide)
  have hm7 := hmid 7 (by decide)
  rw [show middle_cols.getD 0 "" = "P Alk" from by decide] at hm0
  rw [show middle_cols.getD 7 "" = "Mo" from by decide] at hm7
  refine ⟨d, hd, ?_, ?_, ?_, ?_, ?_, ?_, ?_⟩
  · rw [hc]; decide
  · rw [hp]; decide
  · rw [ht]; decide
  · rw [hf]; decide
  · rw [htc]; decide
  · rw [hm0]; decide
  · rw [hm7]; decide

/-! ## Claims C1, C7, C8, C10 — the ingestion orchestrator -/

/-- The row processor never changes the database: the only write it could
perform is the systems `INSERT`, whose `VALUES` tuple raises `NameError`
on the unbound `comment` and is caught; the successful paths can only
set the `to_float` flag. -/
theorem processRow_ok_db (rid : ℕ) (headers : List String) (s : Sess) (row : List String)
    (s' : Sess) (h : processRow rid headers s row = .ok s') : s'.db = s.db := by
  simp only [processRow] at h
  repeat' split at h
  all_goals first | (cases h; rfl) | cases h

/-- A `processRow` error carries the unchanged session at the raise
point. -/
theorem processRow_error_db (rid : ℕ) (headers : List String) (s : Sess) (row : List String)
    (e : Sess × String) (h : processRow rid headers s row = .error e) : e.1 = s := by
  simp only [processRow] at h
  repeat' split at h
  all_goals first | (cases h; rfl) | cases h

/-- Folding `processRow` over a table's data rows preserves the
database. -/
theorem foldE_processRow_ok_db (rid : ℕ) (headers : List String) (rows : List (List String))
    (s s' : Sess) (h : foldE (processRow rid headers) s rows = .ok s') : s'.db = s.db := by
  induction rows generalizing s with
  | nil => simp only [foldE] at h; cases h; rfl
  | cons r rest ih =>
    simp only [foldE] at h
    cases hf : processRow rid headers s r with
    | ok s1 =>
      rw [hf] at h
      rw [ih s1 h, processRow_ok_db _ _ _ _ _ hf]
    | error e => rw [hf] at h; cases h

/-- An aborted row fold still leaves the database unchanged. -/
theorem foldE_processRow_error_db (rid : ℕ) (headers : List String) (rows : List (List String))
    (s : Sess) (e : Sess × String) (h : foldE (processRow rid headers) s rows = .error e) :
    e.1.db = s.db := by
  induction rows generalizing s with
  | nil => simp only [foldE] at h; cases h
  | cons r rest ih =>
    simp only [foldE] at h
    cases hf : processRow rid headers s r with
    | ok s1 =>
      rw [hf] at h
      rw [ih s1 h, processRow_ok_db _ _ _ _ _ hf]
    | error e1 =>
      rw [hf] at h
      cases h
      rw [processRow_error_db _ _ _ _ _ hf]

/-- The table processor preserves the database. -/
theorem processTable_ok_db (rid : ℕ) (s : Sess) (table : List (List String)) (s' : Sess)
    (h : processTable rid s table = .ok s') : s'.db = s.db := by
  simp only [processTable] at h
  split at h
  · cases h; rfl
  · split at h
    · cases h; rfl
    · exact foldE_processRow_ok_db _ _ _ _ _ h

/-- An aborted `processTable` leaves the database unchanged. -/
theorem processTable_error_db (rid : ℕ) (s : Sess) (table : List (List String))
    (e : Sess × String) (h : processTable rid s table = .error e) : e.1.db = s.db := by
  simp only [processTable] at h
  split at h
  · cases h
  · split at h
    · cases h
    · exact foldE_processRow_error_db _ _ _ _ _ h

/-- Folding `processTable` over a file's tables preserves the database. -/
theorem foldE_processTable_ok_db (rid : ℕ) (tables : List (List (List String)))
    (s s' : Sess) (h : foldE (fun acc t => processTable rid acc t) s tables = .ok s') :
    s'.db = s.db := by
  induction tables generalizing s with
  | nil => simp only [foldE] at h; cases h; rfl
  | cons r rest ih =>
    simp only [foldE] at h
    cases hf : processTable rid s r with
    | ok s1 =>
      rw [hf] at h
      rw [ih s1 h, processTable_ok_db _ _ _ _ hf]
    | error e => rw [hf] at h; cases h

/-- An aborted table fold leaves the database unchanged. -/
theorem foldE_processTable_error_db (rid : ℕ) (tables : List (List (List String)))
    (s : Sess) (e : Sess × String)
    (h : foldE (fun acc t => processTable rid acc t) s tables = .error e) :
    e.1.db = s.db := by
  induction tables generalizing s with
  | nil => simp only [foldE] at h; cases h
  | cons r rest ih =>
    simp only [foldE] at h
    cases hf : processTable rid s r with
    | ok s1 =>
      rw [hf] at h
      rw [ih s1 h, processTable_ok_db _ _ _ _ hf]
    | error e1 =>
      rw [hf] at h
      cases h
      rw [processTable_error_db _ _ _ _ hf]

/-- A file that fails an early gate, or whose filename already has a
`reports` row, is processed to `ok` with the session unchanged (the
whole document is skipped by the `continue` at line 217). -/
theorem processFile_skip (s : Sess) (f : FileInput)
    (h : skipsEarly f = true ∨ f.filename ∈ s.db.reports.map (fun r => r.filename)) :
    processFile s f = .ok s := by
  simp only [processFile]
  by_cases hz : f.size = 0
  · simp [hz]
  · cases hext : f.extracted with
    | none => simp [hz, hext]
    | some ext =>
      by_cases hblank : pyStrip ext.full_text = ""
      · simp [hz, hext, hblank]
      · have hmem : f.filename ∈ s.db.reports.map (fun r => r.filename) := by
          rcases h with hse | hm
          · exfalso
            simp only [skipsEarly, hext, Bool.or_eq_true, decide_eq_true_eq] at hse
            rcases hse with h' | h'
            · exact hz h'
            · exact hblank h'
          · exact hm
        have hany : s.db.reports.any (fun r => r.filename = f.filename) = true := by
          rw [List.any_eq_true]
          rw [List.mem_map] at hmem
          obtain ⟨r, hr, hrf⟩ := hmem
          exact ⟨r, hr, by simp [hrf]⟩
        simp [hz, hext, hblank, hany]

/-- What a successful `processFile` can do to the database: systems are
untouched, and the reports either stay as they were (skip) or gain
exactly the new row, whose filename was not yet present. -/
theorem processFile_ok_spec (s : Sess) (f : FileInput) (s' : Sess)
    (h : processFile s f = .ok s') :
    s'.db.systems = s.db.systems ∧
    (s'.db.reports = s.db.reports ∨
      (s'.db.reports = s.db.reports ++
         [⟨s.db.nextId, f.filename, f.facility, f.date_value, f.chemist⟩] ∧
       s.db.reports.any (fun r => r.filename = f.filename) = false)) := by
  simp only [processFile] at h
  split at h
  · cases h; exact ⟨rfl, Or.inl rfl⟩
  · split at h
    · cases h; exact ⟨rfl, Or.inl rfl⟩
    · split at h
      · cases h; exact ⟨rfl, Or.inl rfl⟩
      · split at h
        · cases h; exact ⟨rfl, Or.inl rfl⟩
        · next hany =>
          have hdb := foldE_processTable_ok_db _ _ _ _ h
          rw [hdb]
          exact ⟨rfl, Or.inr ⟨rfl, Bool.eq_false_iff.2 hany⟩⟩

/-- A `processFile` abort happens only after the report row was
committed: systems untouched, reports grown by exactly that row. -/
theorem processFile_error_spec (s : Sess) (f : FileInput) (e : Sess × String)
    (h : processFile s f = .error e) :
    e.1.db.systems = s.db.systems ∧
    ∃ r : ReportRow, e.1.db.reports = s.db.reports ++ [r] := by
  simp only [processFile] at h
  split at h
  · cases h
  · split at h
    · cases h
    · split at h
      · cases h
      · split at h
        · cases h
        · have hdb := foldE_processTable_error_db _ _ _ _ h
          rw [hdb]
          exact ⟨rfl, ⟨_, rfl⟩⟩

/-- After a successful `processFile`, either the file failed an early
gate or its filename is present in the resulting reports table. -/
theorem processFile_ok_classify (s : Sess) (f : FileInput) (s' : Sess)
    (h : processFile s f = .ok s') :
    skipsEarly f = true ∨ f.filename ∈ s'.db.reports.map (fun r => r.filename) := by
  simp only [processFile] at h
  split at h
  · next hz => exact Or.inl (by simp [skipsEarly, hz])
  · split at h
    · next hext => exact Or.inl (by simp [skipsEarly, hext])
    · next ext hext =>
      split at h
      · next hblank => exact Or.inl (by simp [skipsEarly, hext, hblank])
      · right
        split at h
        · next hany =>
          cases h
          rw [List.any_eq_true] at hany
          obtain ⟨r, hr, hrf⟩ := hany
          rw [List.mem_map]
          exact ⟨r, hr, by simpa using hrf.symm⟩
        · have hdb := foldE_processTable_ok_db _ _ _ _ h
          rw [hdb]
          rw [List.mem_map]
          refine ⟨⟨s.db.nextId, f.filename, f.facility, f.date_value, f.chemist⟩, ?_, rfl⟩
          simp

/-- A completed run never touches the systems table. -/
theorem foldE_processFile_systems_ok (files : List FileInput) (s s' : Sess)
    (h : foldE processFile s files = .ok s') : s'.db.systems = s.db.systems := by
  induction files generalizing s with
  | nil => simp only [foldE] at h; cases h; rfl
  | cons f rest ih =>
    simp only [foldE] at h
    cases hf : processFile s f with
    | ok s1 =>
      rw [hf] at h
      rw [ih s1 h, (processFile_ok_spec _ _ _ hf).1]
    | error e => rw [hf] at h; cases h

/-- An aborted run never touches the systems table either. -/
theorem foldE_processFile_systems_error (files : List FileInput) (s : Sess)
    (e : Sess × String) (h : foldE processFile s files = .error e) :
    e.1.db.systems = s.db.systems := by
  induction files generalizing s with
  | nil => simp only [foldE] at h; cases h
  | cons f rest ih =>
    simp only [foldE] at h
    cases hf : processFile s f with
    | ok s1 =>
      rw [hf] at h
      rw [ih s1 h, (processFile_ok_spec _ _ _ hf).1]
    | error e1 =>
      rw [hf] at h
      cases h
      exact (processFile_error_spec _ _ _ hf).1

/-- A run only appends to the reports table. -/
theorem foldE_processFile_reports_mono (files : List FileInput) (s s' : Sess)
    (h : foldE processFile s files = .ok s') :
    s.db.reports <+: s'.db.reports := by
  induction files generalizing s with
  | nil => simp only [foldE] at h; cases h; exact ⟨[], List.append_nil _⟩
  | cons f rest ih =>
    simp only [foldE] at h
    cases hf : processFile s f with
    | ok s1 =>
      rw [hf] at h
      refine List.IsPrefix.trans ?_ (ih s1 h)
      rcases (processFile_ok_spec _ _ _ hf).2 with he | ⟨he, _⟩
      · rw [he]
      · rw [he]; exact ⟨_, rfl⟩
    | error e => rw [hf] at h; cases h

/-- A run preserves distinctness of the report filenames: every insert
is guarded by the existence check at line 212. -/
theorem foldE_processFile_nodup (files : List FileInput) (s s' : Sess)
    (h : foldE processFile s files = .ok s')
    (hnd : (s.db.reports.map (fun r => r.filename)).Nodup) :
    (s'.db.reports.map (fun r => r.filename)).Nodup := by
  induction files generalizing s with
  | nil => simp only [foldE] at h; cases h; exact hnd
  | cons f rest ih =>
    simp only [foldE] at h
    cases hf : processFile s f with
    | ok s1 =>
      rw [hf] at h
      refine ih s1 h ?_
      rcases (processFile_ok_spec _ _ _ hf).2 with he | ⟨he, hany⟩
      · rw [he]; exact hnd
      · rw [he, List.map_append]
        simp only [List.map_cons, List.map_nil]
        rw [List.nodup_append]
        refine ⟨hnd, List.nodup_singleton _, ?_⟩
        intro a ha hb
        simp only [List.mem_singleton] at hb
        subst hb
        rw [List.mem_map] at ha
        obtain ⟨r, hr, hrf⟩ := ha
        have hc : s.db.reports.any (fun r => r.filename = f.filename) = true := by
          rw [List.any_eq_true]
          exact ⟨r, hr, by simp [hrf]⟩
        rw [hany] at hc
        cases hc
    | error e => rw [hf] at h; cases h

/-- After a completed run, re-running over the same files is the
identity: every file either fails an early gate again or is found by
filename and skipped whole. -/
theorem foldE_processFile_rerun (files : List FileInput) :
    ∀ (s s₁ : Sess), foldE processFile s files = .ok s₁ →
    ∀ tf : Bool, foldE processFile ⟨s₁.db, tf⟩ files = .ok ⟨s₁.db, tf⟩ := by
  induction files with
  | nil =>
    intro s s₁ h tf
    simp only [foldE]
  | cons f rest ih =>
    intro s s₁ h tf
    simp only [foldE] at h ⊢
    cases hf : processFile s f with
    | ok s1 =>
      rw [hf] at h
      have hcls := processFile_ok_classify _ _ _ hf
      have hpre := foldE_processFile_reports_mono _ _ _ h
      have hskip : processFile ⟨s₁.db, tf⟩ f = .ok ⟨s₁.db, tf⟩ := by
        apply processFile_skip
        rcases hcls with hse | hmem
        · exact Or.inl hse
        · right
          exact (hpre.map (fun r => r.filename)).subset hmem
      rw [hskip]
      exact ih s1 s₁ h tf
    | error e => rw [hf] at h; cases h

/-- C10: every run of `process_reports` leaves the systems table
unchanged — it never inserts a `MonitoredSystem` row, whether the run
completes or aborts.  The per-system `INSERT` at lines 332-340
references the local variable `comment`, assigned nowhere in the
function, so every insert attempt raises `NameError` inside the
per-system `try` and is caught and skipped. -/
theorem c10_systems_never_inserted (listing : List FileInput) (db : DB) :
    (processReports listing db).db.systems = db.systems := by
  simp only [processReports]
  cases hf : foldE processFile ⟨db, false⟩
      (listing.filter (fun f => pyEndsWith (pyLower f.filename) ".docx" ||
        pyEndsWith (pyLower f.filename) ".pdf")) with
  | ok s => exact foldE_processFile_systems_ok _ _ _ hf
  | error e => exact foldE_processFile_systems_error _ _ _ hf

/-- C7 counterexample: re-running ingestion over the partially-ingested
document does NOT insert its missing system.  The rerun is the identity
on the store — the filename match at line 212 hits the `continue` at
line 217, skipping the whole document — so the systems table stays
empty even though the document's table contains the system `"Loop"`. -/
theorem c7_counterexample :
    processReports [c7File] c7Db = ⟨c7Db, .completed⟩ ∧
    (processReports [c7File] c7Db).db.systems = [] :=
  ⟨by decide, by decide⟩

/-- C7 amended: the rerun's duplicate check operates at whole-document
granularity, not at (document, system) granularity: when every listed
file's filename already has a `reports` row, `process_reports` is the
identity on the store and completes — no missing system of a
half-ingested document is ever inserted on rerun.  (The per-system
check at line 327 only applies to rows of a document whose report row
was inserted in the same run.) -/
theorem c7_rerun_skips_whole_document (listing : List FileInput) (db : DB)
    (h : ∀ f ∈ listing, f.filename ∈ db.reports.map (fun r => r.filename)) :
    processReports listing db = ⟨db, .completed⟩ := by
  simp only [processReports]
  have hfold : ∀ (l : List FileInput),
      (∀ f ∈ l, f.filename ∈ db.reports.map (fun r => r.filename)) →
      ∀ tf : Bool, foldE processFile ⟨db, tf⟩ l = .ok ⟨db, tf⟩ := by
    intro l
    induction l with
    | nil => intro _ tf; rfl
    | cons f rest ih =>
      intro hl tf
      simp only [foldE]
      rw [processFile_skip _ _ (Or.inr (hl f (by simp)))]
      exact ih (fun g hg => hl g (by simp [hg])) tf
  rw [hfold _ (fun f hf => h f (List.mem_of_mem_filter hf)) false]

/-- Witness for the amended statement of C7. -/
theorem c7_witness : processReports [c7wFile] c7wDb = ⟨c7wDb, .completed⟩ :=
  c7_rerun_skips_whole_document [c7wFile] c7wDb (by decide)

/-- C8: an exception raised while processing a single document DOES
propagate out and abort the whole run.  On `c8File`, the special
handling at line 279 calls `to_float` before the `def` at line 293 has
ever executed, raising `UnboundLocalError` outside any `try`; the run
aborts right after the document's report row was committed (the reports
table already has 1 row). -/
theorem c8_uncaught_exception_aborts_run :
    (processReports [c8File] ⟨[], [], 1⟩).outcome =
      .aborted "UnboundLocalError: cannot access local variable to_float" ∧
    (processReports [c8File] ⟨[], [], 1⟩).db.reports.length = 1 :=
  ⟨by decide, by decide⟩

/-- C1 counterexample: rerunning `process_reports` over an unchanged
directory listing is NOT unconditionally the identity on the store.
Over the listing `[c8File, c1File]` and an empty store the first run
aborts while processing the first document (the uncaught
UnboundLocalError of report_processor.py line 279) after committing its
report row, so the second document is never reached and the reports
table holds 1 row; the second run over the unchanged listing and the
resulting store skips the first document by filename, ingests the
second, and completes with 2 report rows — the row counts of the two
runs differ. -/
theorem c1_counterexample :
    (processReports [c8File, c1File] ⟨[], [], 1⟩).outcome ≠ RunOutcome.completed ∧
    (processReports [c8File, c1File] ⟨[], [], 1⟩).db.reports.length = 1 ∧
    (processReports [c8File, c1File]
      ((processReports [c8File, c1File] ⟨[], [], 1⟩).db)).outcome = RunOutcome.completed ∧
    (processReports [c8File, c1File]
      ((processReports [c8File, c1File] ⟨[], [], 1⟩).db)).db.reports.length = 2 :=
  ⟨by decide, by decide, by decide, by decide⟩

/-- C1 amended: ingestion idempotence holds for completed runs.  If a
run of `process_reports` over a directory listing completes, then a
second run over the unchanged listing and resulting store (i) is the
identity on the store and completes, so (ii) the reports row count and
(iii) the systems row count after the second run equal those after the
first; (iv) every
listed file whose filename is already present is skipped with the store
unchanged; (v) distinctness of report filenames is preserved (no
duplicate `Document` rows are created); and (vi) the first run inserts
no system rows at all (no duplicate `MonitoredSystem` rows). -/
theorem c1_ingestion_idempotent (listing : List FileInput) (db0 : DB)
    (h : (processReports listing db0).outcome = .completed) :
    processReports listing ((processReports listing db0).db) =
      ⟨(processReports listing db0).db, .completed⟩ ∧
    (processReports listing ((processReports listing db0).db)).db.reports.length =
      (processReports listing db0).db.reports.length ∧
    (processReports listing ((processReports listing db0).db)).db.systems.length =
      (processReports listing db0).db.systems.length ∧
    (∀ f ∈ listing, ∀ tf : Bool,
      f.filename ∈ (processReports listing db0).db.reports.map (fun r => r.filename) →
      processFile ⟨(processReports listing db0).db, tf⟩ f =
        .ok ⟨(processReports listing db0).db, tf⟩) ∧
    ((db0.reports.map (fun r => r.filename)).Nodup →
      ((processReports listing db0).db.reports.map (fun r => r.filename)).Nodup) ∧
    (processReports listing db0).db.systems = db0.systems := by
  cases hf : foldE processFile ⟨db0, false⟩
      (listing.filter (fun f => pyEndsWith (pyLower f.filename) ".docx" ||
        pyEndsWith (pyLower f.filename) ".pdf")) with
  | error e =>
    exfalso
    have hr : (processReports listing db0).outcome = .aborted e.2 := by
      simp only [processReports]
      rw [hf]
    rw [hr] at h
    cases h
  | ok s1 =>
    have hr1 : processReports listing db0 = ⟨s1.db, .completed⟩ := by
      simp only [processReports]
      rw [hf]
    have hrun2 := foldE_processFile_rerun _ _ _ hf
    have hr2 : processReports listing s1.db = ⟨s1.db, .completed⟩ := by
      simp only [processReports]
      rw [hrun2 false]
    rw [hr1]
    dsimp only
    refine ⟨hr2, by rw [hr2], by rw [hr2], ?_, ?_, ?_⟩
    · intro f _ tf hmem
      exact processFile_skip _ _ (Or.inr hmem)
    · intro hnd
      exact foldE_processFile_nodup _ _ _ hf hnd
    · exact foldE_processFile_systems_ok _ _ _ hf

/-- Witness for C1 at a one-file listing over an empty store: the first
run completes and the second run is the identity on the resulting
store. -/
theorem c1_witness :
    (processReports [c1File] ⟨[], [], 1⟩).outcome = .completed ∧
    processReports [c1File] ((processReports [c1File] ⟨[], [], 1⟩).db) =
      ⟨(processReports [c1File] ⟨[], [], 1⟩).db, .completed⟩ :=
  ⟨by decide, (c1_ingestion_idempotent [c1File] ⟨[], [], 1⟩ (by decide)).1⟩
